import Mathlib

/-!
# Querio — formal model of the query builder and relation loading

A shallow embedding of the Querio ORM (TypeScript).  The definitions below
are translated from the repository sources:

* `src/src/types/index.ts` — `camelToSnake`, `snakeToCamel`, `getColumnName`,
  `mapFieldsToColumns`, `mapColumnsToFields`;
* `src/src/index.ts` (`builder/QueryBuilder.ts`) — the `QueryBuilder` class:
  `where`/`andWhere`/`orWhere`, `buildWhereClause`, `buildSingleCondition`,
  `buildSelectQuery`, `buildCountQuery`, `buildInsertQuery`,
  `buildInsertManyQuery`, `getSQLOperator`;
* `src/unnamed/part_004` (`repository/Repository.ts`) — `loadRelations` and
  `loadSingleRelation`;
* `src/src/core/modelRegistry.ts` — the model registry helpers.

JavaScript values appearing in queries are modelled by `Value`; `undefined`
and `null` are distinct constructors because the source distinguishes them
(`value !== undefined` skips a field, while `null` is bound as a parameter).
Mutation of the shared `params` array is modelled by returning the list of
values a call appends (`pushed`); callers concatenate explicitly, exactly
where the source code lets the shared array grow.
-/

set_option maxRecDepth 10000

namespace Querio

/-- A JavaScript value as it appears in conditions, rows and parameters. -/
inductive Value where
  | undef : Value
  | null : Value
  | int : Int → Value
  | str : String → Value
  | bool : Bool → Value
deriving DecidableEq, Repr

/-- JS `v != null` (loose): true for everything except `null`/`undefined`. -/
def Value.isNonNullish : Value → Bool
  | .undef => false
  | .null => false
  | _ => true

/-- `camelToSnake` from `types/index.ts`: every upper-case letter is replaced
by an underscore followed by its lower-case form. -/
def camelToSnake (s : String) : String :=
  String.mk ((s.toList.map (fun c => if c.isUpper then ['_', c.toLower] else [c])).flatten)

/-- `snakeToCamel` from `types/index.ts`: each underscore followed by a
lower-case letter becomes that letter upper-cased (the regex
`/_([a-z])/g`, scanning left to right). -/
def snakeToCamelAux : List Char → List Char
  | [] => []
  | '_' :: c :: rest =>
      if c.isLower then c.toUpper :: snakeToCamelAux rest
      else '_' :: snakeToCamelAux (c :: rest)
  | c :: rest => c :: snakeToCamelAux rest

def snakeToCamel (s : String) : String :=
  String.mk (snakeToCamelAux s.toList)

/-- The part of `FieldDefinition` relevant to name mapping: the optional
explicit `column` override (`types/index.ts`). -/
structure FieldDefinition where
  column : Option String := none
deriving DecidableEq, Repr

/-- `FieldsDefinition`: a JS record, modelled as an insertion-ordered
association list. -/
abbrev FieldsDefinition := List (String × FieldDefinition)

/-- `getColumnName(field, fieldDef)` from `types/index.ts`. -/
def getColumnName (field : String) (fieldDef : Option FieldDefinition) : String :=
  match fieldDef with
  | some fd =>
      match fd.column with
      | some c => c
      | none => camelToSnake field
  | none => camelToSnake field

/-- `QueryBuilder.getColumnName`: looks the field up in the builder's
fields definition. -/
def getColumnNameQB (fd : FieldsDefinition) (field : String) : String :=
  getColumnName field (fd.lookup field)

/-- A JS row / record object: insertion-ordered association list. -/
abbrev Row := List (String × Value)

/-- JS object assignment `obj[k] = v`: overwrite in place if the key exists,
otherwise append. -/
def upsertRow (m : Row) (k : String) (v : Value) : Row :=
  if m.any (fun p => p.1 = k) then
    m.map (fun p => if p.1 = k then (k, v) else p)
  else m ++ [(k, v)]

/-- `mapFieldsToColumns` from `types/index.ts`: renames each key through
`getColumnName`, later entries overwriting earlier ones. -/
def mapFieldsToColumns (fd : FieldsDefinition) (fields : Row) : Row :=
  fields.foldl (fun acc p => upsertRow acc (getColumnName p.1 (fd.lookup p.1)) p.2) []

/-- JS string-keyed map assignment for the column→field reverse map. -/
def upsertStr (m : List (String × String)) (k v : String) : List (String × String) :=
  if m.any (fun p => p.1 = k) then
    m.map (fun p => if p.1 = k then (k, v) else p)
  else m ++ [(k, v)]

/-- The `columnToFieldMap` built inside `mapColumnsToFields`. -/
def columnToFieldMap (fd : FieldsDefinition) : List (String × String) :=
  fd.foldl (fun acc p => upsertStr acc (getColumnName p.1 (some p.2)) p.1) []

/-- `mapColumnsToFields` from `types/index.ts`: maps each column of a row
back to its entity field name, falling back to `snakeToCamel`. -/
def mapColumnsToFields (fd : FieldsDefinition) (row : Row) : Row :=
  let cmap := columnToFieldMap fd
  row.foldl (fun acc p => upsertRow acc ((cmap.lookup p.1).getD (snakeToCamel p.1)) p.2) []

/-- `mapRowsToEntities`. -/
def mapRowsToEntities (fd : FieldsDefinition) (rows : List Row) : List Row :=
  rows.map (mapColumnsToFields fd)

/-- One entry of an operator object such as `{ gt: 10 }` in a field
condition.  Following the `WhereCondition` type in `types/index.ts`,
`in`/`notIn` carry arrays and `isNull`/`isNotNull` carry no value the
compiler reads. -/
inductive OpEntry where
  | scalar : String → Value → OpEntry
  | inList : List Value → OpEntry
  | notInList : List Value → OpEntry
  | isNull : OpEntry
  | isNotNull : OpEntry
deriving DecidableEq, Repr

/-- The value of one field entry in a condition object: `undefined` (the
entry is skipped), a plain value (simple equality), or an operator
object. -/
inductive CondVal where
  | undef : CondVal
  | lit : Value → CondVal
  | ops : List OpEntry → CondVal
deriving DecidableEq, Repr

/-- A `WhereCondition` object.  `andC`/`orC` are `some cs` when the `AND`
(resp. `OR`) key is present with a truthy (array) value, `none` when the key
is absent or `undefined`; `fields` holds the remaining field entries in
insertion order. -/
inductive Cond where
  | mk : Option (List Cond) → Option (List Cond) → List (String × CondVal) → Cond

/-- `getSQLOperator` from the builder: unknown operators fall back to `=`. -/
def getSQLOperator (op : String) : String :=
  if op = "eq" then "="
  else if op = "ne" then "!="
  else if op = "gt" then ">"
  else if op = "gte" then ">="
  else if op = "lt" then "<"
  else if op = "lte" then "<="
  else if op = "like" then "LIKE"
  else if op = "ilike" then "ILIKE"
  else if op = "in" then "IN"
  else if op = "notIn" then "NOT IN"
  else if op = "isNull" then "IS NULL"
  else if op = "isNotNull" then "IS NOT NULL"
  else "="

/-- Result of compiling a condition: the clause text, the values appended to
the shared `params` array, and the next free placeholder index. -/
structure ClauseResult where
  clause : String
  pushed : List Value
  nextParamIndex : Nat
deriving DecidableEq, Repr

/-- The operator loop inside `buildSingleCondition` (the
`Object.entries(value).forEach` over an operator object). -/
def buildFieldOps (col : String) : List OpEntry → Nat → (List String × List Value × Nat)
  | [], idx => ([], [], idx)
  | e :: rest, idx =>
    match e with
    | .scalar op v =>
        let t := buildFieldOps col rest (idx + 1)
        ((col ++ " " ++ getSQLOperator op ++ " $" ++ toString idx) :: t.1, v :: t.2.1, t.2.2)
    | .inList vs =>
        let phs := String.intercalate ", " ((List.range vs.length).map (fun k => "$" ++ toString (idx + k)))
        let t := buildFieldOps col rest (idx + vs.length)
        ((col ++ " IN (" ++ phs ++ ")") :: t.1, vs ++ t.2.1, t.2.2)
    | .notInList vs =>
        let phs := String.intercalate ", " ((List.range vs.length).map (fun k => "$" ++ toString (idx + k)))
        let t := buildFieldOps col rest (idx + vs.length)
        ((col ++ " NOT IN (" ++ phs ++ ")") :: t.1, vs ++ t.2.1, t.2.2)
    | .isNull =>
        let t := buildFieldOps col rest idx
        ((col ++ " IS NULL") :: t.1, t.2.1, t.2.2)
    | .isNotNull =>
        let t := buildFieldOps col rest idx
        ((col ++ " IS NOT NULL") :: t.1, t.2.1, t.2.2)

/-- The field-entry loop inside `buildSingleCondition`
(`Object.entries(condition).forEach`): `undefined` values are skipped,
plain values compile to `col = $i`, operator objects go through
`buildFieldOps`. -/
def buildFields (fd : FieldsDefinition) : List (String × CondVal) → Nat → (List String × List Value × Nat)
  | [], idx => ([], [], idx)
  | (f, v) :: rest, idx =>
    let col := getColumnNameQB fd f
    match v with
    | .undef => buildFields fd rest idx
    | .lit w =>
        let t := buildFields fd rest (idx + 1)
        ((col ++ " = $" ++ toString idx) :: t.1, w :: t.2.1, t.2.2)
    | .ops es =>
        let r := buildFieldOps col es idx
        let t := buildFields fd rest r.2.2
        (r.1 ++ t.1, r.2.1 ++ t.2.1, t.2.2)

mutual

/-- `QueryBuilder.buildSingleCondition`.  The `AND` key, when present and
truthy, preempts everything else; then `OR`; only then are the field entries
compiled.  Sub-conditions compiling to an empty clause contribute no clause
and do not advance the placeholder index (but any values they pushed stay in
the shared array, as in the source). -/
def buildSingleCondition (fd : FieldsDefinition) (c : Cond) (paramIndex : Nat) : ClauseResult :=
  match c with
  | .mk (some cs) _o _f =>
      let r := buildCondList fd cs paramIndex
      { clause := if r.1 = [] then "" else "(" ++ String.intercalate " AND " r.1 ++ ")",
        pushed := r.2.1, nextParamIndex := r.2.2 }
  | .mk none (some cs) _f =>
      let r := buildCondList fd cs paramIndex
      { clause := if r.1 = [] then "" else "(" ++ String.intercalate " OR " r.1 ++ ")",
        pushed := r.2.1, nextParamIndex := r.2.2 }
  | .mk none none fs =>
      let r := buildFields fd fs paramIndex
      { clause := if r.1 = [] then "" else String.intercalate " AND " r.1,
        pushed := r.2.1, nextParamIndex := r.2.2 }

/-- The `forEach` loop shared by the `AND`/`OR` branches of
`buildSingleCondition` and by `buildWhereClause`: compile each condition at
the current index, keep non-empty clauses, and advance the index only for
them. -/
def buildCondList (fd : FieldsDefinition) (cs : List Cond) (paramIndex : Nat) : (List String × List Value × Nat) :=
  match cs with
  | [] => ([], [], paramIndex)
  | c :: rest =>
      let r := buildSingleCondition fd c paramIndex
      if r.clause = "" then
        let t := buildCondList fd rest paramIndex
        (t.1, r.pushed ++ t.2.1, t.2.2)
      else
        let t := buildCondList fd rest r.nextParamIndex
        (r.clause :: t.1, r.pushed ++ t.2.1, t.2.2)

end

/-- `QueryBuilder.buildWhereClause`: compile the list of registered
conditions and join the non-empty clauses with `AND`. -/
def buildWhereClause (fd : FieldsDefinition) (conditions : List Cond) (startIndex : Nat) : (String × List Value × Nat) :=
  let t := buildCondList fd conditions startIndex
  (String.intercalate " AND " t.1, t.2.1, t.2.2)

/-- A join registered through `innerJoin`/`leftJoin`/`rightJoin`. -/
structure JoinCondition where
  table : String
  kind : String
  onClause : String
  aliasName : Option String := none
deriving DecidableEq, Repr

/-- The mutable state of a `QueryBuilder<T>` instance.  Order-by entries are
the single-field objects the `orderBy` method creates. -/
structure QueryBuilder where
  tableName : String
  fieldsDefinition : FieldsDefinition := []
  whereConditions : List Cond := []
  orderByConditions : List (String × String) := []
  joinConditions : List JoinCondition := []
  groupByFields : List String := []
  havingConditions : List Cond := []
  limitValue : Option Int := none
  offsetValue : Option Int := none

/-- `QueryBuilder.isEmptyCondition`: the condition object has no keys, or
every value (including the `AND`/`OR` keys) is `undefined`. -/
def isEmptyCondition : Cond → Bool
  | .mk none none fs => fs.all (fun p => match p.2 with | .undef => true | _ => false)
  | _ => false

/-- `QueryBuilder.where`: an empty condition clears all registered
conditions; a non-empty one replaces them. -/
def QueryBuilder.where' (qb : QueryBuilder) (c : Cond) : QueryBuilder :=
  if isEmptyCondition c then { qb with whereConditions := [] }
  else { qb with whereConditions := [c] }

/-- `QueryBuilder.andWhere`: empty conditions are ignored; otherwise the
condition is appended. -/
def QueryBuilder.andWhere (qb : QueryBuilder) (c : Cond) : QueryBuilder :=
  if isEmptyCondition c then qb
  else { qb with whereConditions := qb.whereConditions ++ [c] }

/-- `QueryBuilder.orWhere`: with no registered condition it behaves like a
push; otherwise the last condition is wrapped with the new one in an `OR`
object. -/
def QueryBuilder.orWhere (qb : QueryBuilder) (c : Cond) : QueryBuilder :=
  match qb.whereConditions.getLast? with
  | none => { qb with whereConditions := qb.whereConditions ++ [c] }
  | some l =>
      { qb with whereConditions := qb.whereConditions.dropLast ++ [Cond.mk none (some [l, c]) []] }

/-- A compiled SQL statement: text and positional parameters. -/
abbrev SQLQuery := String × List Value

/-- `QueryBuilder.buildSelectQuery`.  `selectFields`, when given, is the
list of raw column names passed by `pluck`/`SelectQueryBuilder`. -/
def buildSelectQuery (qb : QueryBuilder) (selectFields : Option (List String)) : SQLQuery :=
  let fields := match selectFields with
    | some sf => String.intercalate ", " (sf.map (getColumnNameQB qb.fieldsDefinition))
    | none => "*"
  let sql := "SELECT " ++ fields ++ " FROM " ++ qb.tableName
  let sql := qb.joinConditions.foldl (fun s j =>
    s ++ " " ++ j.kind.toUpper ++ " JOIN " ++ j.table ++
      (match j.aliasName with | some a => " AS " ++ a | none => "") ++ " ON " ++ j.onClause) sql
  let w := buildWhereClause qb.fieldsDefinition qb.whereConditions 1
  let (sql, params, paramIndex) :=
    if qb.whereConditions.isEmpty then (sql, ([] : List Value), 1)
    else (sql ++ " WHERE " ++ w.1, w.2.1, w.2.2)
  let sql :=
    if qb.groupByFields.isEmpty then sql
    else sql ++ " GROUP BY " ++
      String.intercalate ", " (qb.groupByFields.map (getColumnNameQB qb.fieldsDefinition))
  let h := buildWhereClause qb.fieldsDefinition qb.havingConditions paramIndex
  let (sql, params, paramIndex) :=
    if qb.havingConditions.isEmpty then (sql, params, paramIndex)
    else (sql ++ " HAVING " ++ h.1, params ++ h.2.1, h.2.2)
  let sql :=
    if qb.orderByConditions.isEmpty then sql
    else sql ++ " ORDER BY " ++ String.intercalate ", " (qb.orderByConditions.map (fun (p : String × String) =>
      getColumnNameQB qb.fieldsDefinition p.1 ++ " " ++ p.2.toUpper))
  let (sql, params, paramIndex) :=
    match qb.limitValue with
    | some v => (sql ++ " LIMIT $" ++ toString paramIndex, params ++ [Value.int v], paramIndex + 1)
    | none => (sql, params, paramIndex)
  let (sql, params, _) :=
    match qb.offsetValue with
    | some v => (sql ++ " OFFSET $" ++ toString paramIndex, params ++ [Value.int v], paramIndex + 1)
    | none => (sql, params, paramIndex)
  (sql, params)

/-- `QueryBuilder.buildUpdateQuery`. -/
def buildUpdateQuery (qb : QueryBuilder) (data : Row) : SQLQuery :=
  let mappedData := mapFieldsToColumns qb.fieldsDefinition data
  let setClause := String.intercalate ", "
    ((List.range mappedData.length).map (fun i => ((mappedData.get? i).map Prod.fst).getD "" ++ " = $" ++ toString (i + 1)))
  let sql := "UPDATE " ++ qb.tableName ++ " SET " ++ setClause
  let params := mappedData.map Prod.snd
  let paramIndex := params.length + 1
  let w := buildWhereClause qb.fieldsDefinition qb.whereConditions paramIndex
  let (sql, params) :=
    if qb.whereConditions.isEmpty then (sql, params)
    else (sql ++ " WHERE " ++ w.1, params ++ w.2.1)
  (sql ++ " RETURNING *", params)

/-- `QueryBuilder.buildDeleteQuery`. -/
def buildDeleteQuery (qb : QueryBuilder) : SQLQuery :=
  let sql := "DELETE FROM " ++ qb.tableName
  let w := buildWhereClause qb.fieldsDefinition qb.whereConditions 1
  let (sql, params) :=
    if qb.whereConditions.isEmpty then (sql, ([] : List Value))
    else (sql ++ " WHERE " ++ w.1, w.2.1)
  (sql ++ " RETURNING *", params)

/-- `QueryBuilder.buildCountQuery`.  Note — faithfully to the source — that
when `GROUP BY` is present the `WHERE` clause is compiled a second time for
the subquery against the *already filled* `params` array, so the `WHERE`
parameters are appended twice. -/
def buildCountQuery (qb : QueryBuilder) : SQLQuery :=
  let base := "SELECT COUNT(*) as count FROM " ++ qb.tableName
  let w := buildWhereClause qb.fieldsDefinition qb.whereConditions 1
  let (sql, params, paramIndex) :=
    if qb.whereConditions.isEmpty then (base, ([] : List Value), 1)
    else (base ++ " WHERE " ++ w.1, w.2.1, w.2.2)
  if qb.groupByFields.isEmpty then (sql, params)
  else
    let cols := qb.groupByFields.map (getColumnNameQB qb.fieldsDefinition)
    let s2 := "SELECT COUNT(*) as count FROM (SELECT 1 FROM " ++ qb.tableName
    let (s2, params) :=
      if qb.whereConditions.isEmpty then (s2, params)
      else (s2 ++ " WHERE " ++ w.1, params ++ w.2.1)
    let s2 := s2 ++ " GROUP BY " ++ String.intercalate ", " cols
    let h := buildWhereClause qb.fieldsDefinition qb.havingConditions paramIndex
    let (s2, params) :=
      if qb.havingConditions.isEmpty then (s2, params)
      else (s2 ++ " HAVING " ++ h.1, params ++ h.2.1)
    (s2 ++ ") as grouped_count", params)

/-- `QueryBuilder.buildInsertQuery`. -/
def buildInsertQuery (qb : QueryBuilder) (data : Row) : SQLQuery :=
  let mappedData := mapFieldsToColumns qb.fieldsDefinition data
  let columns := String.intercalate ", " (mappedData.map Prod.fst)
  let values := String.intercalate ", "
    ((List.range mappedData.length).map (fun i => "$" ++ toString (i + 1)))
  ("INSERT INTO " ++ qb.tableName ++ " (" ++ columns ++ ") VALUES (" ++ values ++ ") RETURNING *",
    mappedData.map Prod.snd)

/-- The column-set union built by `buildInsertManyQuery`: a JS `Set` filled
in iteration order. -/
def collectColumns (mapped : List Row) : List String :=
  mapped.foldl (fun acc item => item.foldl (fun a p => if p.1 ∈ a then a else a ++ [p.1]) acc) []

/-- The default JS `Array.sort()` string comparison: lexicographic on the
code units (for the column names at hand, the code points). -/
def charListLe : List Char → List Char → Bool
  | [], _ => true
  | _ :: _, [] => false
  | a :: as, b :: bs =>
      if a.toNat < b.toNat then true
      else if b.toNat < a.toNat then false
      else charListLe as bs

def jsLeb (a b : String) : Bool :=
  charListLe a.toList b.toList

/-- The string order `Array.sort()` sorts by. -/
def jsLe (a b : String) : Prop :=
  jsLeb a b = true

instance : DecidableRel jsLe := fun a b => by
  unfold jsLe
  infer_instance

/-- The sorted column list of `buildInsertManyQuery`
(`Array.from(allColumns).sort()`), as a stable sort by the JS string
order. -/
def insertManyColumns (fd : FieldsDefinition) (data : List Row) : List String :=
  List.insertionSort jsLe (collectColumns (data.map (mapFieldsToColumns fd)))

/-- `QueryBuilder.buildInsertManyQuery`: rejects an empty batch, unions and
sorts the columns of all rows, fills missing columns with `null`, and emits
one placeholder tuple per row. -/
def buildInsertManyQuery (qb : QueryBuilder) (data : List Row) : Except String SQLQuery :=
  if data = [] then .error "Cannot insert empty data array"
  else
    let mappedData := data.map (mapFieldsToColumns qb.fieldsDefinition)
    let columns := insertManyColumns qb.fieldsDefinition data
    let normalizedData := mappedData.map (fun item =>
      columns.map (fun col => ((item.lookup col).getD Value.null)))
    let columnsStr := String.intercalate ", " columns
    let valueRows := String.intercalate ", " ((List.range normalizedData.length).map (fun rowIndex =>
      "(" ++ String.intercalate ", " ((List.range columns.length).map (fun colIndex =>
        "$" ++ toString (colIndex + 1 + rowIndex * columns.length))) ++ ")"))
    .ok ("INSERT INTO " ++ qb.tableName ++ " (" ++ columnsStr ++ ") VALUES " ++ valueRows ++ " RETURNING *",
          normalizedData.flatten)

/-- `QueryBuilder.insertMany` up to the executor boundary: the queries the
executor is asked to run.  The build step throwing means the executor is
never called. -/
def insertManyIssued (qb : QueryBuilder) (data : List Row) : List SQLQuery :=
  match buildInsertManyQuery qb data with
  | .error _ => []
  | .ok q => [q]

/-- Positional-placeholder scanner state: `dollar` means a `$` was just
read, `num n` means digits worth `n` follow a `$`. -/
inductive ScanSt where
  | idle : ScanSt
  | dollar : ScanSt
  | num : Nat → ScanSt

/-- Scan the `$N` placeholders out of an SQL text, left to right. -/
def scanPlaceholdersAux : List Char → ScanSt → List Nat
  | [], .num n => [n]
  | [], _ => []
  | c :: rest, .idle =>
      if c = '$' then scanPlaceholdersAux rest .dollar else scanPlaceholdersAux rest .idle
  | c :: rest, .dollar =>
      if c.isDigit then scanPlaceholdersAux rest (.num (c.toNat - 48))
      else if c = '$' then scanPlaceholdersAux rest .dollar
      else scanPlaceholdersAux rest .idle
  | c :: rest, .num n =>
      if c.isDigit then scanPlaceholdersAux rest (.num (10 * n + (c.toNat - 48)))
      else if c = '$' then n :: scanPlaceholdersAux rest .dollar
      else n :: scanPlaceholdersAux rest .idle

/-- The list of placeholder numbers appearing in an SQL text, in order. -/
def placeholders (s : String) : List Nat :=
  scanPlaceholdersAux s.toList .idle

/-! ## Repository relation loading (`repository/Repository.ts`) -/

/-- `RelationType` from `core/relations.ts`. -/
inductive RelType where
  | hasOne : RelType
  | hasMany : RelType
  | belongsTo : RelType
  | belongsToMany : RelType
deriving DecidableEq, Repr

/-- A `Relation` descriptor (`core/relations.ts`).  The pivot components are
optional because only `belongsToMany` descriptors carry them. -/
structure Relation where
  type : RelType
  targetModel : String
  foreignKey : String
  localKey : Option String := none
  pivotTable : Option String := none
  pivotForeignKey : Option String := none
  pivotRelatedKey : Option String := none
deriving DecidableEq, Repr

/-- A registered model (`core/modelRegistry.ts`): its table name and its
optional relation map. -/
structure RegisteredModel where
  table : String
  relations : Option (List (String × Relation)) := none
deriving DecidableEq, Repr

/-- The global model registry, a name-keyed map. -/
abbrev ModelRegistry := List (String × RegisteredModel)

/-- `getModelTable`: throws when the model is unknown. -/
def getModelTable (reg : ModelRegistry) (name : String) : Except String String :=
  match reg.lookup name with
  | none => .error ("Model '" ++ name ++ "' not found in registry")
  | some m => .ok m.table

/-- `getModelRelations`: throws when the model is unknown, and may return
`undefined` when the model has no relation map. -/
def getModelRelations (reg : ModelRegistry) (name : String) :
    Except String (Option (List (String × Relation))) :=
  match reg.lookup name with
  | none => .error ("Model '" ++ name ++ "' not found in registry")
  | some m => .ok m.relations

/-- A record being materialized: its data fields plus the relation values
attached so far (`record[relationName] = ...`). -/
inductive RelVal where
  | one : Option Row → RelVal
  | many : List Row → RelVal
deriving DecidableEq, Repr

structure Entity where
  fields : Row
  rels : List (String × RelVal) := []
deriving DecidableEq, Repr

/-- JS property read `record[key]`: `undefined` when absent. -/
def getRecField (r : Entity) (k : String) : Value :=
  (r.fields.lookup k).getD Value.undef

/-- JS property read on a fetched row object. -/
def getRowField (r : Row) (k : String) : Value :=
  (r.lookup k).getD Value.undef

/-- `record[relationName] = v`. -/
def setRel (r : Entity) (name : String) (v : RelVal) : Entity :=
  if r.rels.any (fun p => p.1 = name) then
    { r with rels := r.rels.map (fun p => if p.1 = name then (name, v) else p) }
  else { r with rels := r.rels ++ [(name, v)] }

/-- The database a query executor runs against: table name → rows, with the
rows keyed by column names. -/
abbrev Database := List (String × List Row)

/-- The one query shape `loadSingleRelation` issues:
`new QueryBuilder(table).where({ [fld]: { in: vals } }).getMany()`. -/
structure IssuedQuery where
  table : String
  fld : String
  vals : List Value
deriving DecidableEq, Repr

/-- SQL semantics of `col IN (vals)` for a row value: `NULL` (and a missing
column) never matches. -/
def sqlInMatches (v : Value) (vals : List Value) : Bool :=
  match v with
  | .null => false
  | .undef => false
  | _ => vals.contains v

/-- Executing `SELECT * FROM table WHERE col IN (vals)`: the table's rows,
in stored order, whose column is in the list; `getMany` then maps the column
names back to entity field names (empty fields definition, so via
`snakeToCamel`).  The condition's field name goes through `getColumnName`
exactly as `buildWhereClause` would send it to SQL. -/
def runIssued (db : Database) (q : IssuedQuery) : List Row :=
  mapRowsToEntities []
    (((db.lookup q.table).getD []).filter
      (fun r => sqlInMatches (getRowField r (camelToSnake q.fld)) q.vals))

/-- The local-key values extracted from the records
(`records.map(r => r[localKey]).filter(id => id != null)`). -/
def extractIds (records : List Entity) (key : String) : List Value :=
  (records.map (fun r => getRecField r key)).filter Value.isNonNullish

/-- The core of `loadSingleRelation` once the target table is known.  It
returns the updated records, the queries issued (in order) and the warnings
emitted. -/
def loadSingleRelationAt (db : Database) (targetTable : String) (records : List Entity)
    (relationName : String) (relation : Relation) :
    List Entity × List IssuedQuery × List String :=
  let localKey := relation.localKey.getD "id"
  let ids := extractIds records localKey
  if ids.isEmpty then (records, [], [])
  else
    match relation.type with
    | .hasOne | .hasMany =>
        let q : IssuedQuery := ⟨targetTable, relation.foreignKey, ids⟩
        let relatedRecords := runIssued db q
        let updated := records.map (fun record =>
          let recordId := getRecField record localKey
          let related := relatedRecords.filter
            (fun r => getRowField r relation.foreignKey = recordId)
          if relation.type = RelType.hasOne then
            setRel record relationName (RelVal.one related.head?)
          else
            setRel record relationName (RelVal.many related))
        (updated, [q], [])
    | .belongsTo =>
        let foreignKeys :=
          (records.map (fun r => getRecField r relation.foreignKey)).filter Value.isNonNullish
        if foreignKeys.isEmpty then (records, [], [])
        else
          let q : IssuedQuery := ⟨targetTable, localKey, foreignKeys⟩
          let relatedRecords := runIssued db q
          let updated := records.map (fun record =>
            let fk := getRecField record relation.foreignKey
            let related := relatedRecords.find? (fun r => getRowField r localKey = fk)
            setRel record relationName (RelVal.one related))
          (updated, [q], [])
    | .belongsToMany =>
        match relation.pivotTable, relation.pivotForeignKey, relation.pivotRelatedKey with
        | some pivotTable, some pfk, some prk =>
            let pivotQ : IssuedQuery := ⟨pivotTable, pfk, ids⟩
            let pivotRecords := runIssued db pivotQ
            if pivotRecords.isEmpty then (records, [pivotQ], [])
            else
              let relatedIds :=
                (pivotRecords.map (fun p => getRowField p prk)).filter Value.isNonNullish
              if relatedIds.isEmpty then (records, [pivotQ], [])
              else
                let relQ : IssuedQuery := ⟨targetTable, "id", relatedIds⟩
                let relatedRecords := runIssued db relQ
                let updated := records.map (fun record =>
                  let recordId := getRecField record localKey
                  let pivotMatches := pivotRecords.filter
                    (fun p => getRowField p pfk = recordId)
                  let relatedForRecord := (pivotMatches.map (fun p =>
                    relatedRecords.find? (fun rel => getRowField rel "id" = getRowField p prk))).reduceOption
                  setRel record relationName (RelVal.many relatedForRecord))
                (updated, [pivotQ, relQ], [])
        | _, _, _ =>
            (records, [],
              ["belongsToMany relation '" ++ relationName ++ "' requires a pivotTable and pivot keys"])

/-- `Repository.loadSingleRelation`: resolve the target table from the
registry, warning and falling back to the target model name when the model
is unknown, then run the core loader.  Nested relation options are not
requested by boolean load options, which is the shape this embedding
covers. -/
def loadSingleRelation (db : Database) (reg : ModelRegistry) (records : List Entity)
    (relationName : String) (relation : Relation) :
    List Entity × List IssuedQuery × List String :=
  match getModelTable reg relation.targetModel with
  | .ok t => loadSingleRelationAt db t records relationName relation
  | .error _ =>
      let r := loadSingleRelationAt db relation.targetModel records relationName relation
      (r.1,
       r.2.1,
       ("Target model '" ++ relation.targetModel ++
          "' not found in registry. Using target model name as table name.") :: r.2.2)

/-- One step of the `for (const [relationName, loadOption] of ...)` loop in
`Repository.loadRelations`. -/
def loadRelationsStep (db : Database) (reg : ModelRegistry) (modelName : String)
    (modelRelations : List (String × Relation))
    (acc : List Entity × List IssuedQuery × List String) (opt : String × Bool) :
    List Entity × List IssuedQuery × List String :=
  if !opt.2 then acc
  else
    match modelRelations.lookup opt.1 with
    | none =>
        (acc.1, acc.2.1,
          acc.2.2 ++ ["Relation '" ++ opt.1 ++ "' not found for model '" ++ modelName ++ "'"])
    | some relation =>
        let r := loadSingleRelation db reg acc.1 opt.1 relation
        (r.1, acc.2.1 ++ r.2.1, acc.2.2 ++ r.2.2)

/-- `Repository.loadRelations`: resolve each requested relation in turn.
The repository's model name is its table name (`getModelName`).  An unknown
owning model, or a model without relations, returns the records untouched
after a warning; an unknown relation name is skipped with a warning and the
remaining relations still load. -/
def loadRelations (db : Database) (reg : ModelRegistry) (modelName : String)
    (records : List Entity) (relationOptions : List (String × Bool)) :
    List Entity × List IssuedQuery × List String :=
  if records.isEmpty then (records, [], [])
  else
    match getModelRelations reg modelName with
    | .error _ =>
        (records, [],
          ["Model '" ++ modelName ++ "' not found in registry. Relation loading skipped."])
    | .ok none =>
        (records, [], ["No relations defined for model '" ++ modelName ++ "'"])
    | .ok (some modelRelations) =>
        relationOptions.foldl (loadRelationsStep db reg modelName modelRelations)
          (records, [], [])

/-! ## Specification-side definitions and concrete instances -/

/-- The `VALUES` section of a multi-row insert as the specification words
it: one tuple per input row, the placeholder number of column `c` in row
`r` being `r * column_count + c`, 1-based. -/
def specInsertTuples (rows cols : Nat) : String :=
  String.intercalate ", " ((List.range rows).map (fun r =>
    "(" ++ String.intercalate ", " ((List.range cols).map (fun c =>
      "$" ++ toString (r * cols + c + 1))) ++ ")"))

/-- The `WHERE`/`GROUP BY`/`HAVING` tail a builder's SELECT statement
carries after `FROM table` (when it has no joins, ordering, limit or
offset). -/
def selectTail (qb : QueryBuilder) : String :=
  (if qb.whereConditions.isEmpty then ""
   else " WHERE " ++ (buildWhereClause qb.fieldsDefinition qb.whereConditions 1).1) ++
  (if qb.groupByFields.isEmpty then ""
   else " GROUP BY " ++
     String.intercalate ", " (qb.groupByFields.map (getColumnNameQB qb.fieldsDefinition))) ++
  (if qb.havingConditions.isEmpty then ""
   else " HAVING " ++
     (buildWhereClause qb.fieldsDefinition qb.havingConditions
       (if qb.whereConditions.isEmpty then 1
        else (buildWhereClause qb.fieldsDefinition qb.whereConditions 1).2.2)).1)

/-- The condition object `{a: 1, OR: [{b: 2}, {c: 3}]}`. -/
def mixedFieldOrCond : Cond :=
  Cond.mk none
    (some [Cond.mk none none [("b", CondVal.lit (Value.int 2))],
           Cond.mk none none [("c", CondVal.lit (Value.int 3))]])
    [("a", CondVal.lit (Value.int 1))]

/-- A builder with `where({a: 1})`, `groupBy(b)` and `having({c: {gt: 2}})`. -/
def countBugQB : QueryBuilder :=
  { tableName := "t"
    whereConditions := [Cond.mk none none [("a", CondVal.lit (Value.int 1))]]
    groupByFields := ["b"]
    havingConditions := [Cond.mk none none [("c", CondVal.ops [OpEntry.scalar "gt" (Value.int 2)])]] }

/-- Registry for the belongsToMany duplicate-pivot scenario: the `Tag`
model lives in table `tags`. -/
def dupPivotReg : ModelRegistry := [("Tag", { table := "tags" })]

/-- A pivot table holding the pair (1, 10) twice, and one tag row. -/
def dupPivotDb : Database :=
  [("post_tags",
    [[("post_id", Value.int 1), ("tag_id", Value.int 10)],
     [("post_id", Value.int 1), ("tag_id", Value.int 10)]]),
   ("tags", [[("id", Value.int 10)]])]

/-- The belongsToMany descriptor of the duplicate-pivot scenario. -/
def dupPivotRel : Relation :=
  { type := RelType.belongsToMany, targetModel := "Tag", foreignKey := ""
    localKey := some "id", pivotTable := some "post_tags"
    pivotForeignKey := some "postId", pivotRelatedKey := some "tagId" }

/-- Registry for the hasMany scenario of the specification's example. -/
def hasManyReg : ModelRegistry := [("Item", { table := "items" })]

/-- Related rows `[{id:10,parentId:1},{id:11,parentId:1},{id:12,parentId:2}]`
stored under their column names. -/
def hasManyDb : Database :=
  [("items",
    [[("id", Value.int 10), ("parent_id", Value.int 1)],
     [("id", Value.int 11), ("parent_id", Value.int 1)],
     [("id", Value.int 12), ("parent_id", Value.int 2)]])]

/-- The hasMany descriptor with foreign key `parentId`. -/
def hasManyRel : Relation :=
  { type := RelType.hasMany, targetModel := "Item", foreignKey := "parentId"
    localKey := some "id" }

/-- The records `[{id:1},{id:2}]`. -/
def hasManyRecs : List Entity :=
  [{ fields := [("id", Value.int 1)] }, { fields := [("id", Value.int 2)] }]

/-- A belongsToMany descriptor whose target model `Tag` will be left out of
the registry. -/
def unregTargetRel : Relation :=
  { type := RelType.belongsToMany, targetModel := "Tag", foreignKey := ""
    localKey := some "id", pivotTable := some "post_tags"
    pivotForeignKey := some "postId", pivotRelatedKey := some "tagId" }

/-- Registry for the unknown-target scenario: the owning model `posts` is
registered with the relation `tags`, but model `Tag` is not registered. -/
def unregTargetReg : ModelRegistry :=
  [("posts", { table := "posts", relations := some [("tags", unregTargetRel)] })]

/-- A database holding the pivot pair (1, 5) and a table literally named
`Tag` — the name the fallback uses — holding the row `{id: 5}`. -/
def unregTargetDb : Database :=
  [("post_tags", [[("post_id", Value.int 1), ("tag_id", Value.int 5)]]),
   ("Tag", [[("id", Value.int 5)]])]

/-- A single record `{id: 1}`. -/
def oneRec : List Entity := [{ fields := [("id", Value.int 1)] }]

/-- A non-empty field condition used by witnesses. -/
def plainCond : Cond := Cond.mk none none [("a", CondVal.lit (Value.int 1))]

/-- A condition whose only field entry is `undefined`. -/
def undefCond : Cond := Cond.mk none none [("x", CondVal.undef)]

/-- The two-row insert batch `[{a:1,b:2}, {a:3}]`. -/
def insertManyData : List Row :=
  [[("a", Value.int 1), ("b", Value.int 2)], [("a", Value.int 3)]]

/-- A bare builder over table `t`. -/
def plainQB : QueryBuilder := { tableName := "t" }

/-- The builder with the parts a COUNT statement ignores removed: no joins,
no ordering, no limit, no offset. -/
def strippedQB (qb : QueryBuilder) : QueryBuilder :=
  { qb with joinConditions := [], orderByConditions := [], limitValue := none, offsetValue := none }

/-- A builder with a WHERE condition, GROUP BY, HAVING — and also an ORDER
BY and LIMIT that the COUNT statement drops. -/
def groupedQB : QueryBuilder :=
  { tableName := "t"
    whereConditions := [Cond.mk none none [("a", CondVal.lit (Value.int 1))]]
    groupByFields := ["b"]
    havingConditions := [Cond.mk none none [("c", CondVal.ops [OpEntry.scalar "gt" (Value.int 2)])]]
    orderByConditions := [("b", "asc")]
    limitValue := some 10 }

/-! ## Theorems -/

/-- C1.  Compiling the mixed condition `{a: 1, OR: [{b: 2}, {c: 3}]}` at
startIndex 1 does **not** produce `a = $1 AND (b = $2 OR c = $3)` with
parameters `[1, 2, 3]`: because the `OR` key preempts the field entries in
`buildSingleCondition`, the plain entry `a: 1` is silently dropped and the
result is `(b = $1 OR c = $2)` with parameters `[2, 3]`. -/
theorem mixed_field_or_drops_plain_field :
    buildSingleCondition [] mixedFieldOrCond 1 =
      { clause := "(b = $1 OR c = $2)"
        pushed := [Value.int 2, Value.int 3]
        nextParamIndex := 3 } := by
  rfl

/-- C2.  For the builder `where({a:1}).groupBy(b).having({c:{gt:2}})`, the
compiled COUNT statement's placeholders are `$1, $2` while the parameter
list has three entries: the `WHERE` parameter is pushed twice (once by the
discarded first pass, once for the subquery), so the highest placeholder
number (2) is not the parameter count (3) and `$2`'s value position holds
the duplicated `WHERE` parameter. -/
theorem count_query_duplicates_where_params :
    (buildCountQuery countBugQB).1 =
      "SELECT COUNT(*) as count FROM (SELECT 1 FROM t WHERE a = $1 GROUP BY b HAVING c > $2) as grouped_count" ∧
    placeholders (buildCountQuery countBugQB).1 = [1, 2] ∧
    (buildCountQuery countBugQB).2 = [Value.int 1, Value.int 1, Value.int 2] := by
  exact ⟨rfl, rfl, rfl⟩

/-- C3.  With a pivot table containing the pair (1, 10) twice, the
belongsToMany loader attaches the single target row `{id: 10}` **twice** to
record 1: each duplicate pivot row is mapped to the target row without
deduplication. -/
theorem belongs_to_many_duplicates_target_row :
    loadSingleRelation dupPivotDb dupPivotReg oneRec "tags" dupPivotRel =
      ([{ fields := [("id", Value.int 1)]
          rels := [("tags", RelVal.many [[("id", Value.int 10)], [("id", Value.int 10)]])] }],
       [{ table := "post_tags", fld := "postId", vals := [Value.int 1] },
        { table := "tags", fld := "id", vals := [Value.int 10, Value.int 10] }],
       []) ∧
    (((([[("id", Value.int 10)], [("id", Value.int 10)]] : List Row)).count
        [("id", Value.int 10)]) = 2) := by
  exact ⟨rfl, rfl⟩

/-- C7.  An empty `insertMany` batch is rejected with an error before any
SQL statement exists, and the executor is never handed a query. -/
theorem insert_many_rejects_empty_batch (qb : QueryBuilder) :
    buildInsertManyQuery qb [] = Except.error "Cannot insert empty data array" ∧
    insertManyIssued qb [] = [] := by
  exact ⟨rfl, rfl⟩

/-- The hasOne/hasMany branch of `loadSingleRelationAt` issues exactly one
query when at least one local-key value is present. -/
theorem loadSingleRelationAt_hasMany_one_query (db : Database) (t : String)
    (records : List Entity) (nm : String) (rel : Relation)
    (h1 : rel.type = RelType.hasMany)
    (h2 : extractIds records (rel.localKey.getD "id") ≠ []) :
    (loadSingleRelationAt db t records nm rel).2.1.length = 1 := by
  unfold loadSingleRelationAt
  rw [h1]
  simp [List.isEmpty_iff, h2]

/-- C5.  A hasMany materialization issues exactly one query whenever any
record carries a local-key value — regardless of the number of records —
and on the specification's example (`[{id:1},{id:2}]`, foreign key
`parentId`, rows 10/11 under parent 1 and row 12 under parent 2) it
attaches rows 10 and 11 to record 1 and row 12 to record 2, in fetched
order. -/
theorem has_many_single_query_and_attachment :
    (∀ db reg records relationName rel, rel.type = RelType.hasMany →
        extractIds records (rel.localKey.getD "id") ≠ [] →
        (loadSingleRelation db reg records relationName rel).2.1.length = 1) ∧
    loadSingleRelation hasManyDb hasManyReg hasManyRecs "children" hasManyRel =
      ([{ fields := [("id", Value.int 1)]
          rels := [("children", RelVal.many
            [[("id", Value.int 10), ("parentId", Value.int 1)],
             [("id", Value.int 11), ("parentId", Value.int 1)]])] },
        { fields := [("id", Value.int 2)]
          rels := [("children", RelVal.many
            [[("id", Value.int 12), ("parentId", Value.int 2)]])] }],
       [{ table := "items", fld := "parentId", vals := [Value.int 1, Value.int 2] }],
       []) := by
  constructor
  · intro db reg records relationName rel h1 h2
    unfold loadSingleRelation
    cases h : getModelTable reg rel.targetModel with
    | ok t => simpa using loadSingleRelationAt_hasMany_one_query db t records relationName rel h1 h2
    | error e => simpa using loadSingleRelationAt_hasMany_one_query db rel.targetModel records relationName rel h1 h2
  · rfl

/-- C5 witness: on the concrete scenario the loader issues exactly one
query. -/
theorem has_many_single_query_witness :
    (loadSingleRelation hasManyDb hasManyReg hasManyRecs "children" hasManyRel).2.1.length = 1 :=
  has_many_single_query_and_attachment.1 hasManyDb hasManyReg hasManyRecs "children" hasManyRel
    rfl (by decide)

/-- C10.  A non-empty `where` replaces every previously registered
condition (so two successive `where`s equal the last one alone, and the
compiled statement agrees), an empty `where` clears them all, a non-empty
`andWhere` appends, and an empty `andWhere` is a no-op. -/
theorem where_replaces_and_where_accumulates (qb : QueryBuilder) (c c₁ c₂ : Cond) :
    (isEmptyCondition c = false → (qb.where' c).whereConditions = [c]) ∧
    (isEmptyCondition c = true → (qb.where' c).whereConditions = []) ∧
    (qb.where' c₁).where' c₂ = qb.where' c₂ ∧
    (isEmptyCondition c = false → (qb.andWhere c).whereConditions = qb.whereConditions ++ [c]) ∧
    (isEmptyCondition c = true → qb.andWhere c = qb) ∧
    buildSelectQuery ((qb.where' c₁).where' c₂) none = buildSelectQuery (qb.where' c₂) none := by
  have h3 : (qb.where' c₁).where' c₂ = qb.where' c₂ := by
    by_cases h1 : isEmptyCondition c₁ <;> by_cases h2 : isEmptyCondition c₂ <;>
      simp [QueryBuilder.where', h1, h2]
  refine ⟨?_, ?_, h3, ?_, ?_, by rw [h3]⟩
  · intro h; simp [QueryBuilder.where', h]
  · intro h; simp [QueryBuilder.where', h]
  · intro h; simp [QueryBuilder.andWhere, h]
  · intro h; simp [QueryBuilder.andWhere, h]

/-- A field list whose values are all `undefined` compiles to nothing. -/
theorem buildFields_all_undef (fd : FieldsDefinition) (fs : List (String × CondVal)) (i : Nat)
    (h : ∀ p ∈ fs, p.2 = CondVal.undef) : buildFields fd fs i = ([], [], i) := by
  induction fs with
  | nil => rfl
  | cons p rest ih =>
      obtain ⟨f, v⟩ := p
      have hv : v = CondVal.undef := h (f, v) (by simp)
      subst hv
      simpa [buildFields] using ih (fun q hq => h q (by simp [hq]))

/-- A list of conditions that each compile to an empty clause compiles to
no clauses, no parameters and an unchanged index. -/
theorem buildCondList_all_empty (fd : FieldsDefinition) (cs : List Cond) (i : Nat)
    (h : ∀ c ∈ cs, ∀ j, buildSingleCondition fd c j = ⟨"", [], j⟩) :
    buildCondList fd cs i = ([], [], i) := by
  induction cs with
  | nil => rfl
  | cons c rest ih =>
      have hc := h c (by simp) i
      simpa [buildCondList, hc] using ih (fun d hd => h d (by simp [hd]))

/-- Dropping a condition that compiles to nothing from a condition list
leaves the compilation unchanged. -/
theorem buildCondList_skip_empty (fd : FieldsDefinition) (e : Cond)
    (he : ∀ j, buildSingleCondition fd e j = ⟨"", [], j⟩) (xs ys : List Cond) :
    ∀ i, buildCondList fd (xs ++ e :: ys) i = buildCondList fd (xs ++ ys) i := by
  induction xs with
  | nil =>
      intro i
      simp [buildCondList, he i]
  | cons x rest ih =>
      intro i
      by_cases hc : (buildSingleCondition fd x i).clause = "" <;>
        simp [buildCondList, hc, ih]

/-- C9.  An `AND` node whose children all compile to nothing, an `OR` node
whose children all compile to nothing, and a fields node whose values are
all `undefined`, each compile to an empty clause, push no parameters and
leave the placeholder index unchanged; and dropping such an empty node
nested among the children of an `AND` or `OR` leaves the parent's compiled
clause unchanged — so no dangling `AND`/`OR` token and no bare `()` is
emitted for it. -/
theorem empty_nodes_compile_to_nothing (fd : FieldsDefinition) (o : Option (List Cond))
    (f fs : List (String × CondVal)) (cs : List Cond) (i : Nat) (e : Cond) (xs ys : List Cond) :
    ((∀ c ∈ cs, ∀ j, buildSingleCondition fd c j = ⟨"", [], j⟩) →
      buildSingleCondition fd (Cond.mk (some cs) o f) i = ⟨"", [], i⟩) ∧
    ((∀ c ∈ cs, ∀ j, buildSingleCondition fd c j = ⟨"", [], j⟩) →
      buildSingleCondition fd (Cond.mk none (some cs) f) i = ⟨"", [], i⟩) ∧
    ((∀ p ∈ fs, p.2 = CondVal.undef) →
      buildSingleCondition fd (Cond.mk none none fs) i = ⟨"", [], i⟩) ∧
    ((∀ j, buildSingleCondition fd e j = ⟨"", [], j⟩) →
      buildSingleCondition fd (Cond.mk (some (xs ++ e :: ys)) o f) i =
        buildSingleCondition fd (Cond.mk (some (xs ++ ys)) o f) i) ∧
    ((∀ j, buildSingleCondition fd e j = ⟨"", [], j⟩) →
      buildSingleCondition fd (Cond.mk none (some (xs ++ e :: ys)) f) i =
        buildSingleCondition fd (Cond.mk none (some (xs ++ ys)) f) i) := by
  refine ⟨?_, ?_, ?_, ?_, ?_⟩
  · intro h
    simp [buildSingleCondition, buildCondList_all_empty fd cs i h]
  · intro h
    simp [buildSingleCondition, buildCondList_all_empty fd cs i h]
  · intro h
    simp [buildSingleCondition, buildFields_all_undef fd fs i h]
  · intro h
    simp [buildSingleCondition, buildCondList_skip_empty fd e h xs ys i]
  · intro h
    simp [buildSingleCondition, buildCondList_skip_empty fd e h xs ys i]

/-- C9 witness: `AND([])`, a fields node with only an `undefined` value,
and an empty node nested beside `{a: 1}`, at concrete inputs. -/
theorem empty_nodes_witness :
    buildSingleCondition [] (Cond.mk (some []) none []) 1 = ⟨"", [], 1⟩ ∧
    buildSingleCondition [] undefCond 1 = ⟨"", [], 1⟩ ∧
    buildSingleCondition [] (Cond.mk (some ([plainCond] ++ undefCond :: [])) none []) 1 =
      buildSingleCondition [] (Cond.mk (some ([plainCond] ++ [])) none []) 1 := by
  refine ⟨(empty_nodes_compile_to_nothing [] none [] [] [] 1 undefCond [] []).1 (by simp),
          (empty_nodes_compile_to_nothing [] none [] [("x", CondVal.undef)] [] 1 undefCond [] []).2.2.1 (by decide),
          (empty_nodes_compile_to_nothing [] none [] [] [] 1 undefCond [plainCond] []).2.2.2.1 (fun j => rfl)⟩

/-- Membership in the per-row column fold: a key is collected iff it was
already in the accumulator or is a key of the row. -/
theorem mem_collect_item_fold (item : Row) (acc : List String) (k : String) :
    (k ∈ item.foldl (fun a p => if p.1 ∈ a then a else a ++ [p.1]) acc) ↔
      (k ∈ acc ∨ k ∈ item.map Prod.fst) := by
  induction item generalizing acc with
  | nil => simp
  | cons p rest ih =>
      simp only [List.foldl_cons, List.map_cons, List.mem_cons]
      rw [ih]
      by_cases h : p.1 ∈ acc
      · simp only [h, if_true]
        constructor
        · rintro (h1 | h2)
          · exact Or.inl h1
          · exact Or.inr (Or.inr h2)
        · rintro (h1 | h2 | h3)
          · exact Or.inl h1
          · exact Or.inl (h2 ▸ h)
          · exact Or.inr h3
      · simp only [h, if_false, List.mem_append, List.mem_singleton]
        tauto

/-- The per-row column fold preserves `Nodup`. -/
theorem nodup_collect_item_fold (item : Row) (acc : List String) (h : acc.Nodup) :
    (item.foldl (fun a p => if p.1 ∈ a then a else a ++ [p.1]) acc).Nodup := by
  induction item generalizing acc with
  | nil => exact h
  | cons p rest ih =>
      simp only [List.foldl_cons]
      by_cases hp : p.1 ∈ acc
      · simp only [hp, if_true]
        exact ih acc h
      · simp only [hp, if_false]
        refine ih _ ?_
        simp [List.nodup_append, h, List.disjoint_singleton, hp]

/-- The JS string order is total. -/
theorem charListLe_total (as : List Char) : ∀ bs, charListLe as bs = true ∨ charListLe bs as = true := by
  induction as with
  | nil => intro bs; left; rfl
  | cons a as ih =>
      intro bs
      cases bs with
      | nil => right; rfl
      | cons b bs =>
          by_cases h1 : a.toNat < b.toNat
          · left; simp [charListLe, h1]
          · by_cases h2 : b.toNat < a.toNat
            · right; simp [charListLe, h1, h2]
            · rcases ih bs with h | h
              · left; simp [charListLe, h1, h2, h]
              · right; simp [charListLe, h1, h2, h]

/-- The JS string order is transitive. -/
theorem charListLe_trans (as : List Char) :
    ∀ bs cs, charListLe as bs = true → charListLe bs cs = true → charListLe as cs = true := by
  induction as with
  | nil => intro bs cs _ _; rfl
  | cons a as ih =>
      intro bs cs hab hbc
      cases bs with
      | nil => simp [charListLe] at hab
      | cons b bs =>
          cases cs with
          | nil => simp [charListLe] at hbc
          | cons c cs =>
              by_cases h1 : a.toNat < b.toNat
              · by_cases h2 : b.toNat < c.toNat
                · have hac : a.toNat < c.toNat := Nat.lt_trans h1 h2
                  simp [charListLe, hac]
                · by_cases h3 : c.toNat < b.toNat
                  · simp [charListLe, h2, h3] at hbc
                  · have hac : a.toNat < c.toNat := by omega
                    simp [charListLe, hac]
              · by_cases h4 : b.toNat < a.toNat
                · simp [charListLe, h1, h4] at hab
                · by_cases h2 : b.toNat < c.toNat
                  · have hac : a.toNat < c.toNat := by omega
                    simp [charListLe, hac]
                  · by_cases h3 : c.toNat < b.toNat
                    · simp [charListLe, h2, h3] at hbc
                    · have hab' : charListLe as bs = true := by
                        simpa [charListLe, h1, h4] using hab
                      have hbc' : charListLe bs cs = true := by
                        simpa [charListLe, h2, h3] using hbc
                      have hac : ¬ a.toNat < c.toNat := by omega
                      have hca : ¬ c.toNat < a.toNat := by omega
                      simp [charListLe, hac, hca, ih bs cs hab' hbc']

/-- A key is in the collected column union iff some row has it. -/
theorem mem_collectColumns (rows : List Row) (k : String) :
    k ∈ collectColumns rows ↔ ∃ r ∈ rows, k ∈ r.map Prod.fst := by
  have main : ∀ (rs : List Row) (acc : List String),
      (k ∈ rs.foldl (fun a item => item.foldl (fun a p => if p.1 ∈ a then a else a ++ [p.1]) a) acc) ↔
        (k ∈ acc ∨ ∃ r ∈ rs, k ∈ r.map Prod.fst) := by
    intro rs
    induction rs with
    | nil => simp
    | cons r rest ih =>
        intro acc
        simp only [List.foldl_cons]
        rw [ih, mem_collect_item_fold]
        simp only [List.mem_cons]
        constructor
        · rintro ((h1 | h2) | ⟨q, hq, hk⟩)
          · exact Or.inl h1
          · exact Or.inr ⟨r, Or.inl rfl, h2⟩
          · exact Or.inr ⟨q, Or.inr hq, hk⟩
        · rintro (h1 | ⟨q, hq | hq, hk⟩)
          · exact Or.inl (Or.inl h1)
          · exact Or.inl (Or.inr (hq ▸ hk))
          · exact Or.inr ⟨q, hq, hk⟩
  simpa using main rows []

/-- The collected column union has no duplicates. -/
theorem nodup_collectColumns (rows : List Row) : (collectColumns rows).Nodup := by
  have main : ∀ (rs : List Row) (acc : List String), acc.Nodup →
      (rs.foldl (fun a item => item.foldl (fun a p => if p.1 ∈ a then a else a ++ [p.1]) a) acc).Nodup := by
    intro rs
    induction rs with
    | nil => intro acc h; exact h
    | cons r rest ih =>
        intro acc h
        simp only [List.foldl_cons]
        exact ih _ (nodup_collect_item_fold r acc h)
  exact main rows [] List.nodup_nil

/-- C6.  For a non-empty batch, `insertMany` builds one INSERT whose column
list is the duplicate-free, sorted union of the (mapped) columns of all
rows, whose VALUES section is one tuple per input row with placeholder
number `row_index * column_count + column_index` (1-based), and whose
parameter list binds, for row `r` and column `c`, the row's value at that
column — or an explicit `null` when the row lacks it. -/
theorem insert_many_shape (qb : QueryBuilder) (data : List Row) (h : data ≠ []) :
    buildInsertManyQuery qb data = Except.ok
      ("INSERT INTO " ++ qb.tableName ++ " (" ++
         String.intercalate ", " (insertManyColumns qb.fieldsDefinition data) ++ ") VALUES " ++
         specInsertTuples data.length (insertManyColumns qb.fieldsDefinition data).length ++
         " RETURNING *",
       (data.map (fun item => (insertManyColumns qb.fieldsDefinition data).map (fun col =>
          ((mapFieldsToColumns qb.fieldsDefinition item).lookup col).getD Value.null))).flatten) ∧
    List.Sorted jsLe (insertManyColumns qb.fieldsDefinition data) ∧
    (insertManyColumns qb.fieldsDefinition data).Nodup ∧
    (∀ k, k ∈ insertManyColumns qb.fieldsDefinition data ↔
       ∃ item ∈ data, k ∈ (mapFieldsToColumns qb.fieldsDefinition item).map Prod.fst) := by
  refine ⟨?_, ?_, ?_, ?_⟩
  · have htuples : ∀ (rows n : Nat),
        String.intercalate ", " ((List.range rows).map (fun rowIndex =>
          "(" ++ String.intercalate ", " ((List.range n).map (fun colIndex =>
            "$" ++ toString (colIndex + 1 + rowIndex * n))) ++ ")")) = specInsertTuples rows n := by
      intro rows n
      unfold specInsertTuples
      congr 1
      refine List.map_congr_left (fun r _ => ?_)
      have hin : (List.map (fun colIndex => "$" ++ toString (colIndex + 1 + r * n)) (List.range n)) =
          (List.map (fun c => "$" ++ toString (r * n + c + 1)) (List.range n)) := by
        refine List.map_congr_left (fun c _ => ?_)
        congr 2
        omega
      rw [hin]
    unfold buildInsertManyQuery
    rw [if_neg h]
    simp only [List.length_map, List.map_map, Except.ok.injEq, Prod.mk.injEq]
    exact ⟨by rw [htuples data.length (insertManyColumns qb.fieldsDefinition data).length], rfl⟩
  · exact @List.sorted_insertionSort String jsLe _
      ⟨fun a b => charListLe_total a.toList b.toList⟩
      ⟨fun a b c => charListLe_trans a.toList b.toList c.toList⟩ _
  · exact (List.perm_insertionSort _ _).nodup_iff.2 (nodup_collectColumns _)
  · intro k
    rw [insertManyColumns, (List.perm_insertionSort _ _).mem_iff, mem_collectColumns]
    constructor
    · rintro ⟨r, hr, hk⟩
      obtain ⟨item, hitem, rfl⟩ := List.mem_map.1 hr
      exact ⟨item, hitem, hk⟩
    · rintro ⟨item, hitem, hk⟩
      exact ⟨mapFieldsToColumns qb.fieldsDefinition item, List.mem_map.2 ⟨item, hitem, rfl⟩, hk⟩

/-- C6 witness: `insertMany([{a:1,b:2},{a:3}])` produces two tuples over the
sorted columns `[a, b]`, with the second row's `b` bound to `null`. -/
theorem insert_many_witness :
    buildInsertManyQuery plainQB insertManyData = Except.ok
      ("INSERT INTO t (a, b) VALUES ($1, $2), ($3, $4) RETURNING *",
       [Value.int 1, Value.int 2, Value.int 3, Value.null]) ∧
    List.Sorted jsLe (insertManyColumns plainQB.fieldsDefinition insertManyData) := by
  have h := insert_many_shape plainQB insertManyData (by decide)
  exact ⟨h.1.trans (by rfl), h.2.1⟩

/-- Appending to the empty string is the identity. -/
theorem empty_str_append (s : String) : "" ++ s = s := rfl

/-- C4.  With a non-empty group-by list, the COUNT statement is
`SELECT COUNT(*)` wrapped around a `SELECT 1 FROM table` subquery that
carries exactly the `WHERE`/`GROUP BY`/`HAVING` tail of the corresponding
SELECT statement (the builder's SELECT without its joins, ordering, limit
and offset). -/
theorem count_counts_groups (qb : QueryBuilder) (h : qb.groupByFields.isEmpty = false) :
    (buildSelectQuery (strippedQB qb) none).1 =
      "SELECT * FROM " ++ qb.tableName ++ selectTail qb ∧
    (buildCountQuery qb).1 =
      "SELECT COUNT(*) as count FROM (SELECT 1 FROM " ++ qb.tableName ++ selectTail qb ++
        ") as grouped_count" := by
  constructor
  · unfold buildSelectQuery selectTail strippedQB
    have e1 : ("SELECT " ++ "*" ++ " FROM " : String) = "SELECT * FROM " := rfl
    by_cases hw : qb.whereConditions.isEmpty <;> by_cases hh : qb.havingConditions.isEmpty <;>
      simp [hw, hh, h, e1, empty_str_append, String.append_assoc]
  · unfold buildCountQuery selectTail
    by_cases hw : qb.whereConditions.isEmpty <;> by_cases hh : qb.havingConditions.isEmpty <;>
      simp [hw, hh, h, empty_str_append, String.append_assoc]

/-- C4 witness: the grouped builder's COUNT wraps the tail its SELECT
carries. -/
theorem count_counts_groups_witness :
    (buildSelectQuery (strippedQB groupedQB) none).1 =
      "SELECT * FROM " ++ groupedQB.tableName ++ selectTail groupedQB ∧
    (buildCountQuery groupedQB).1 =
      "SELECT COUNT(*) as count FROM (SELECT 1 FROM " ++ groupedQB.tableName ++
        selectTail groupedQB ++ ") as grouped_count" :=
  count_counts_groups groupedQB rfl

/-- C8 counterexample.  With the target model `Tag` absent from the
registry, the `tags` relation is **not** skipped: the loader falls back to
the model name as table name, still attaches the related row, and only
emits a warning. -/
theorem unknown_target_model_not_skipped :
    loadRelations unregTargetDb unregTargetReg "posts" oneRec [("tags", true)] =
      ([{ fields := [("id", Value.int 1)]
          rels := [("tags", RelVal.many [[("id", Value.int 5)]])] }],
       [{ table := "post_tags", fld := "postId", vals := [Value.int 1] },
        { table := "Tag", fld := "id", vals := [Value.int 5] }],
       ["Target model 'Tag' not found in registry. Using target model name as table name."]) ∧
    unregTargetReg.lookup "Tag" = none := by
  exact ⟨rfl, rfl⟩

/-- One loop step of `loadRelations` only reads the records of its
accumulator; the queries and warnings it produces are appended. -/
theorem loadRelationsStep_decompose (db : Database) (reg : ModelRegistry) (modelName : String)
    (mrels : List (String × Relation)) (recs : List Entity) (qs : List IssuedQuery)
    (ws : List String) (x : String × Bool) :
    loadRelationsStep db reg modelName mrels (recs, qs, ws) x =
      ((loadRelationsStep db reg modelName mrels (recs, [], []) x).1,
       qs ++ (loadRelationsStep db reg modelName mrels (recs, [], []) x).2.1,
       ws ++ (loadRelationsStep db reg modelName mrels (recs, [], []) x).2.2) := by
  unfold loadRelationsStep
  by_cases hx : x.2
  · simp only [hx]
    cases h : mrels.lookup x.1 <;> simp [h]
  · simp [hx]

/-- The relation loop's fold decomposes over its starting accumulator. -/
theorem loadRelations_fold_decompose (db : Database) (reg : ModelRegistry) (modelName : String)
    (mrels : List (String × Relation)) (opts : List (String × Bool)) :
    ∀ (recs : List Entity) (qs : List IssuedQuery) (ws : List String),
      List.foldl (loadRelationsStep db reg modelName mrels) (recs, qs, ws) opts =
        ((List.foldl (loadRelationsStep db reg modelName mrels) (recs, [], []) opts).1,
         qs ++ (List.foldl (loadRelationsStep db reg modelName mrels) (recs, [], []) opts).2.1,
         ws ++ (List.foldl (loadRelationsStep db reg modelName mrels) (recs, [], []) opts).2.2) := by
  induction opts with
  | nil => intro recs qs ws; simp
  | cons x rest ih =>
      intro recs qs ws
      simp only [List.foldl_cons]
      rw [loadRelationsStep_decompose db reg modelName mrels recs qs ws x]
      rw [ih]
      rw [ih (loadRelationsStep db reg modelName mrels (recs, [], []) x).1
            (loadRelationsStep db reg modelName mrels (recs, [], []) x).2.1
            (loadRelationsStep db reg modelName mrels (recs, [], []) x).2.2]
      simp [List.append_assoc]

/-- C8, amended.  During materialization, (1) an owning model missing from
the registry makes `loadRelations` return the records untouched after one
diagnostic — every requested relation is dropped, not just one; (2) a
relation name not declared for the owning model is skipped alone after a
diagnostic, and the sibling relations resolve exactly as if it had not been
requested; (3) a *target* model missing from the registry does **not**
cause a skip: a diagnostic is emitted and the relation proceeds, using the
target model name as the table name. -/
theorem relation_loading_amended (db : Database) (reg : ModelRegistry) (modelName : String)
    (records : List Entity) (opts o₁ o₂ : List (String × Bool)) (nm relationName : String)
    (mrels : List (String × Relation)) (rel : Relation) :
    (records.isEmpty = false → reg.lookup modelName = none →
      loadRelations db reg modelName records opts =
        (records, [],
         ["Model '" ++ modelName ++ "' not found in registry. Relation loading skipped."])) ∧
    (records.isEmpty = false →
      getModelRelations reg modelName = Except.ok (some mrels) →
      mrels.lookup nm = none →
      (loadRelations db reg modelName records (o₁ ++ (nm, true) :: o₂)).1 =
          (loadRelations db reg modelName records (o₁ ++ o₂)).1 ∧
        (loadRelations db reg modelName records (o₁ ++ (nm, true) :: o₂)).2.1 =
          (loadRelations db reg modelName records (o₁ ++ o₂)).2.1 ∧
        ("Relation '" ++ nm ++ "' not found for model '" ++ modelName ++ "'") ∈
          (loadRelations db reg modelName records (o₁ ++ (nm, true) :: o₂)).2.2) ∧
    (reg.lookup rel.targetModel = none →
      loadSingleRelation db reg records relationName rel =
        ((loadSingleRelationAt db rel.targetModel records relationName rel).1,
         (loadSingleRelationAt db rel.targetModel records relationName rel).2.1,
         ("Target model '" ++ rel.targetModel ++
            "' not found in registry. Using target model name as table name.") ::
           (loadSingleRelationAt db rel.targetModel records relationName rel).2.2)) := by
  refine ⟨?_, ?_, ?_⟩
  · intro hne hlk
    unfold loadRelations getModelRelations
    simp [hne, hlk]
  · intro hne hok hnm
    unfold loadRelations
    rw [hok]
    simp only [hne, Bool.false_eq_true, if_false, List.foldl_append, List.foldl_cons]
    generalize List.foldl (loadRelationsStep db reg modelName mrels) (records, [], []) o₁ = A
    obtain ⟨recs, qs, ws⟩ := A
    have hstep : loadRelationsStep db reg modelName mrels (recs, qs, ws) (nm, true) =
        (recs, qs, ws ++ ["Relation '" ++ nm ++ "' not found for model '" ++ modelName ++ "'"]) := by
      unfold loadRelationsStep
      simp [hnm]
    rw [hstep]
    rw [loadRelations_fold_decompose db reg modelName mrels o₂ recs qs
          (ws ++ ["Relation '" ++ nm ++ "' not found for model '" ++ modelName ++ "'"])]
    rw [loadRelations_fold_decompose db reg modelName mrels o₂ recs qs ws]
    refine ⟨rfl, rfl, ?_⟩
    simp
  · intro hlk
    unfold loadSingleRelation getModelTable
    simp [hlk]

/-- C8 witness: the three amended behaviours at concrete registries — an
unregistered owning model, an unknown relation name beside a resolving
sibling, and an unregistered target model that still resolves. -/
theorem relation_loading_amended_witness :
    (loadRelations unregTargetDb [] "posts" oneRec [("tags", true)] =
      (oneRec, [], ["Model 'posts' not found in registry. Relation loading skipped."])) ∧
    ((loadRelations unregTargetDb unregTargetReg "posts" oneRec
        ([] ++ ("nope", true) :: [("tags", true)])).1 =
        (loadRelations unregTargetDb unregTargetReg "posts" oneRec ([] ++ [("tags", true)])).1 ∧
      (loadRelations unregTargetDb unregTargetReg "posts" oneRec
        ([] ++ ("nope", true) :: [("tags", true)])).2.1 =
        (loadRelations unregTargetDb unregTargetReg "posts" oneRec ([] ++ [("tags", true)])).2.1 ∧
      ("Relation 'nope' not found for model 'posts'") ∈
        (loadRelations unregTargetDb unregTargetReg "posts" oneRec
          ([] ++ ("nope", true) :: [("tags", true)])).2.2) ∧
    (loadSingleRelation unregTargetDb unregTargetReg oneRec "tags" unregTargetRel =
      ((loadSingleRelationAt unregTargetDb "Tag" oneRec "tags" unregTargetRel).1,
       (loadSingleRelationAt unregTargetDb "Tag" oneRec "tags" unregTargetRel).2.1,
       ("Target model 'Tag' not found in registry. Using target model name as table name.") ::
         (loadSingleRelationAt unregTargetDb "Tag" oneRec "tags" unregTargetRel).2.2)) := by
  refine ⟨?_, ?_, ?_⟩
  · exact (relation_loading_amended unregTargetDb [] "posts" oneRec [("tags", true)]
      [] [] "nope" "tags" [] unregTargetRel).1 rfl rfl
  · exact (relation_loading_amended unregTargetDb unregTargetReg "posts" oneRec []
      [] [("tags", true)] "nope" "tags" [("tags", unregTargetRel)] unregTargetRel).2.1 rfl rfl rfl
  · exact (relation_loading_amended unregTargetDb unregTargetReg "posts" oneRec []
      [] [] "nope" "tags" [("tags", unregTargetRel)] unregTargetRel).2.2 rfl

/-- C10 witness: at the concrete builder and conditions, the replacing and
accumulating behaviours hold. -/
theorem where_replaces_witness :
    (plainQB.where' plainCond).whereConditions = [plainCond] ∧
    (plainQB.where' undefCond).whereConditions = [] ∧
    (plainQB.andWhere plainCond).whereConditions = [plainCond] := by
  refine ⟨(where_replaces_and_where_accumulates plainQB plainCond plainCond plainCond).1 rfl,
          (where_replaces_and_where_accumulates plainQB undefCond plainCond plainCond).2.1 rfl,
          ?_⟩
  have h := (where_replaces_and_where_accumulates plainQB plainCond plainCond plainCond).2.2.2.1 rfl
  simpa [plainQB] using h

end Querio
